import Mathlib

/-!
Verification development for the ai-news-dashboard repository.

The TypeScript sources are embedded shallowly: the SQLite `articles` table
becomes a list of rows, each SQL statement becomes a pure function on that
list, the refresh orchestrator becomes a pure event-list producer, and the
client visibility queue becomes an explicit state machine.  JavaScript
numbers are modelled as follows: integers stored in SQLite columns are
`Int`; values that flow through `Math.log10` are `Real`; a JS number that
may be `NaN` is `Option _` with `none` standing for `NaN`.
-/

namespace NewsDash

/-! ## Article store (src/server/db/schema.ts) -/

/-- One row of the `articles` table (interface `Article` in schema.ts).
`is_read` is the SQLite INTEGER flag (0/1), `summary` and the engagement
columns are nullable. -/
structure Article where
  id : String
  source_type : String
  source_name : String
  title : String
  url : String
  content : Option String
  author : Option String
  published_at : Option String
  fetched_at : String
  is_read : Int
  summary : Option String
  engagement_score : Option Int
  engagement_raw : Option String
  engagement_type : Option String
  engagement_fetched_at : Option String
deriving Repr, DecidableEq

/-- The draft passed to `insertArticle` (interface `ArticleInput` in
schema.ts).  The optional engagement fields with their `?? null` defaulting
are modelled directly as `Option`s. -/
structure ArticleInput where
  id : String
  source_type : String
  source_name : String
  title : String
  url : String
  content : Option String
  author : Option String
  published_at : Option String
  fetched_at : String
  engagement_score : Option Int
  engagement_raw : Option String
  engagement_type : Option String
  engagement_fetched_at : Option String
deriving Repr, DecidableEq

/-- The `articles` table: a list of rows.  The `id` column is the primary
key, so rows have pairwise distinct ids in every state the program builds. -/
abbrev Store := List Article

/-- The row created by the INSERT arm of `insertArticle`: the VALUES list
names every column except `is_read` and `summary`, which therefore take
their schema defaults (`is_read INTEGER DEFAULT 0`, `summary` NULL). -/
def insertRow (d : ArticleInput) : Article :=
  { id := d.id
    source_type := d.source_type
    source_name := d.source_name
    title := d.title
    url := d.url
    content := d.content
    author := d.author
    published_at := d.published_at
    fetched_at := d.fetched_at
    is_read := 0
    summary := none
    engagement_score := d.engagement_score
    engagement_raw := d.engagement_raw
    engagement_type := d.engagement_type
    engagement_fetched_at := d.engagement_fetched_at }

/-- The `ON CONFLICT(id) DO UPDATE SET` arm of `insertArticle`: exactly the
four engagement columns are overwritten from the excluded row; every other
column of the existing row is kept. -/
def conflictUpdate (a : Article) (d : ArticleInput) : Article :=
  { a with
    engagement_score := d.engagement_score
    engagement_raw := d.engagement_raw
    engagement_type := d.engagement_type
    engagement_fetched_at := d.engagement_fetched_at }

/-- `insertArticle` (schema.ts): `INSERT ... ON CONFLICT(id) DO UPDATE SET
engagement_score = excluded.engagement_score, ...`.  If a row with the
draft's id exists it is updated by `conflictUpdate`, otherwise a fresh row
is appended. -/
def insertArticle (st : Store) (d : ArticleInput) : Store :=
  if st.any (fun a => a.id == d.id) then
    st.map (fun a => if a.id == d.id then conflictUpdate a d else a)
  else
    st ++ [insertRow d]

/-- `getArticleById` (schema.ts): `SELECT * FROM articles WHERE id = ?`. -/
def getArticleById (st : Store) (id : String) : Option Article :=
  st.find? (fun a => a.id == id)

/-- `updateEngagement` (schema.ts): `UPDATE articles SET engagement_score
= ?, engagement_raw = ?, engagement_type = ?, engagement_fetched_at = ?
WHERE id = ?`.  The score is an `Option Int` because the JS argument is a
number that can be `NaN`, and SQLite stores a bound `NaN` as NULL.  `now`
is the `new Date().toISOString()` value. -/
def updateEngagement (st : Store) (id : String) (score : Option Int)
    (raw ty now : String) : Store :=
  st.map (fun a =>
    if a.id == id then
      { a with
        engagement_score := score
        engagement_raw := some raw
        engagement_type := some ty
        engagement_fetched_at := some now }
    else a)

/-- `markAsRead` (schema.ts): `UPDATE articles SET is_read = 1 WHERE id = ?`. -/
def markAsRead (st : Store) (id : String) : Store :=
  st.map (fun a => if a.id == id then { a with is_read := 1 } else a)

/-- `markAsUnread` (schema.ts): `UPDATE articles SET is_read = 0 WHERE id = ?`. -/
def markAsUnread (st : Store) (id : String) : Store :=
  st.map (fun a => if a.id == id then { a with is_read := 0 } else a)

/-- `saveSummary` (schema.ts): `UPDATE articles SET summary = ? WHERE id = ?`. -/
def saveSummary (st : Store) (id : String) (text : String) : Store :=
  st.map (fun a => if a.id == id then { a with summary := some text } else a)

/-- The column names listed in the `ON CONFLICT(id) DO UPDATE SET` clause
of `insertArticle`. -/
def upsertConflictColumns : List String :=
  ["engagement_score", "engagement_raw", "engagement_type", "engagement_fetched_at"]

/-- The column names listed in the `SET` clause of `updateEngagement`. -/
def updateEngagementColumns : List String :=
  ["engagement_score", "engagement_raw", "engagement_type", "engagement_fetched_at"]

/-! ### Helper lemmas about the store -/

theorem find?_map_conflictUpdate (st : Store) (d : ArticleInput) (a : Article)
    (h : st.find? (fun x => x.id == d.id) = some a) :
    (st.map (fun x => if x.id == d.id then conflictUpdate x d else x)).find?
      (fun x => x.id == d.id) = some (conflictUpdate a d) := by
  induction st with
  | nil => simp at h
  | cons b rest ih =>
    rw [List.map_cons]
    by_cases hb : (b.id == d.id) = true
    · simp only [List.find?_cons, hb, cond_true] at h
      injection h with h
      subst h
      simp [List.find?_cons, conflictUpdate, hb]
    · simp only [List.find?_cons, hb, cond_false] at h
      rw [if_neg hb]
      simp only [List.find?_cons, hb, cond_false]
      exact ih h

theorem any_of_find?_eq_some (st : Store) (d : ArticleInput) (a : Article)
    (h : st.find? (fun x => x.id == d.id) = some a) :
    st.any (fun x => x.id == d.id) = true := by
  induction st with
  | nil => simp at h
  | cons b rest ih =>
    by_cases hb : (b.id == d.id) = true
    · simp [List.any_cons, hb]
    · simp only [List.find?_cons, hb, cond_false] at h
      simp [List.any_cons, hb, ih h]

theorem getArticleById_insertArticle_of_mem (st : Store) (d : ArticleInput)
    (a : Article) (h : getArticleById st d.id = some a) :
    getArticleById (insertArticle st d) d.id = some (conflictUpdate a d) := by
  unfold getArticleById at h ⊢
  unfold insertArticle
  rw [if_pos (any_of_find?_eq_some st d a h)]
  exact find?_map_conflictUpdate st d a h

theorem getArticleById_insertArticle_of_none (st : Store) (d : ArticleInput)
    (h : getArticleById st d.id = none) :
    getArticleById (insertArticle st d) d.id = some (insertRow d) := by
  unfold getArticleById at h
  have hany : st.any (fun a => a.id == d.id) = false := by
    rw [List.any_eq_false]
    intro x hx
    exact List.find?_eq_none.mp h x hx
  unfold insertArticle getArticleById
  rw [if_neg (by simp [hany])]
  induction st with
  | nil => simp [insertRow]
  | cons b rest ih =>
    simp only [List.any_cons, Bool.or_eq_false_iff] at hany
    simp only [List.find?_cons, hany.1, cond_false] at h ⊢
    rw [List.cons_append]
    simp only [List.find?_cons, hany.1, cond_false]
    exact ih h hany.2

/-- A keyed `UPDATE ... WHERE id = ?` that rewrites the matching row with
`f` (which never changes the id) finds the rewritten row afterwards. -/
theorem find?_map_updateById (st : Store) (id : String) (f : Article → Article)
    (hf : ∀ x, (f x).id = x.id) (a : Article)
    (h : st.find? (fun x => x.id == id) = some a) :
    (st.map (fun x => if x.id == id then f x else x)).find?
      (fun x => x.id == id) = some (f a) := by
  induction st with
  | nil => simp at h
  | cons b rest ih =>
    rw [List.map_cons]
    by_cases hb : (b.id == id) = true
    · simp only [List.find?_cons, hb, cond_true] at h
      injection h with h
      subst h
      have hb2 : ((f b).id == id) = true := by rw [hf b]; exact hb
      simp only [if_pos hb, List.find?_cons, hb2, cond_true]
    · simp only [List.find?_cons, hb, cond_false] at h
      rw [if_neg hb]
      simp only [List.find?_cons, hb, cond_false]
      exact ih h

theorem getArticleById_updateEngagement_of_mem (st : Store) (id : String)
    (score : Option Int) (raw ty now : String) (a : Article)
    (h : getArticleById st id = some a) :
    getArticleById (updateEngagement st id score raw ty now) id =
      some { a with
        engagement_score := score
        engagement_raw := some raw
        engagement_type := some ty
        engagement_fetched_at := some now } := by
  unfold getArticleById at h ⊢
  unfold updateEngagement
  exact find?_map_updateById st id
    (fun x =>
      { x with
        engagement_score := score
        engagement_raw := some raw
        engagement_type := some ty
        engagement_fetched_at := some now })
    (fun x => rfl) a h

/-! ### Concrete sample rows used by witnesses and counterexamples -/

/-- A stored article row: already read, already summarized, previously
fetched on 2024-01-03 with engagement score 10. -/
def sampleRow : Article :=
  { id := "a1"
    source_type := "rss"
    source_name := "Example Feed"
    title := "Original title"
    url := "http://example.com/1"
    content := some "original content"
    author := none
    published_at := some "2024-01-02T00:00:00Z"
    fetched_at := "2024-01-03T00:00:00Z"
    is_read := 1
    summary := some "an existing summary"
    engagement_score := some 10
    engagement_raw := some "10"
    engagement_type := some "upvotes"
    engagement_fetched_at := some "2024-01-03T00:00:00Z" }

/-- A refresh draft for the same article id, fetched on 2024-02-09 with a
new engagement score 55. -/
def sampleDraft : ArticleInput :=
  { id := "a1"
    source_type := "rss"
    source_name := "Example Feed"
    title := "Updated title"
    url := "http://example.com/1"
    content := some "updated content"
    author := some "author"
    published_at := some "2024-01-02T00:00:00Z"
    fetched_at := "2024-02-09T00:00:00Z"
    engagement_score := some 55
    engagement_raw := some "55"
    engagement_type := some "upvotes"
    engagement_fetched_at := some "2024-02-09T00:00:00Z" }

/-! ### C2 -/

/-- C2: for every article already present in the store, upserting a draft
with the same id leaves the stored `is_read` and `summary` values
unchanged — a refresh never resets read state or an existing summary. -/
theorem C2_upsert_preserves_isRead_summary (st : Store) (d : ArticleInput)
    (a a' : Article) (h : getArticleById st d.id = some a)
    (h' : getArticleById (insertArticle st d) d.id = some a') :
    a'.is_read = a.is_read ∧ a'.summary = a.summary := by
  rw [getArticleById_insertArticle_of_mem st d a h] at h'
  injection h' with h'
  subst h'
  exact ⟨rfl, rfl⟩

/-- Witness for C2 at a concrete store and draft. -/
theorem C2_upsert_preserves_isRead_summary_witness :
    (conflictUpdate sampleRow sampleDraft).is_read = sampleRow.is_read ∧
    (conflictUpdate sampleRow sampleDraft).summary = sampleRow.summary :=
  C2_upsert_preserves_isRead_summary [sampleRow] sampleDraft sampleRow
    (conflictUpdate sampleRow sampleDraft) (by decide) (by decide)

/-! ### C3 -/

/-- C3 counterexample: upserting `sampleDraft` (fetched 2024-02-09) over
the stored `sampleRow` (fetched 2024-01-03) leaves the stored `fetched_at`
at its old value instead of updating it to the draft's fetch timestamp —
the `ON CONFLICT` clause does not list `fetched_at`. -/
theorem C3_counterexample :
    (getArticleById (insertArticle [sampleRow] sampleDraft) "a1").map
        Article.fetched_at ≠ some sampleDraft.fetched_at ∧
    (getArticleById (insertArticle [sampleRow] sampleDraft) "a1").map
        Article.fetched_at = some sampleRow.fetched_at := by
  constructor
  · decide
  · decide

/-- C3 amended: upserting a draft whose id is already present leaves the
stored `fetched_at` unchanged; `fetched_at` is taken from the draft only
when the row is first inserted. -/
theorem C3_upsert_keeps_fetchedAt (st : Store) (d : ArticleInput) :
    (∀ a a', getArticleById st d.id = some a →
      getArticleById (insertArticle st d) d.id = some a' →
      a'.fetched_at = a.fetched_at) ∧
    (getArticleById st d.id = none →
      getArticleById (insertArticle st d) d.id = some (insertRow d) ∧
      (insertRow d).fetched_at = d.fetched_at) := by
  constructor
  · intro a a' h h'
    rw [getArticleById_insertArticle_of_mem st d a h] at h'
    injection h' with h'
    subst h'
    rfl
  · intro h
    exact ⟨getArticleById_insertArticle_of_none st d h, rfl⟩

/-- Witness for the amended C3 at a concrete store and draft. -/
theorem C3_upsert_keeps_fetchedAt_witness :
    (conflictUpdate sampleRow sampleDraft).fetched_at = sampleRow.fetched_at :=
  (C3_upsert_keeps_fetchedAt [sampleRow] sampleDraft).1 sampleRow
    (conflictUpdate sampleRow sampleDraft) (by decide) (by decide)

/-! ### C4 -/

/-- C4 counterexample: the column set written by the upsert's conflict arm
and the column set written by `updateEngagement` are not disjoint — both
contain `engagement_score` (in fact all four engagement columns), and both
operations really do overwrite that field of the same stored row. -/
theorem C4_counterexample :
    "engagement_score" ∈ upsertConflictColumns ∧
    "engagement_score" ∈ updateEngagementColumns ∧
    (getArticleById (insertArticle [sampleRow] sampleDraft) "a1").map
      Article.engagement_score = some (some 55) ∧
    (getArticleById (updateEngagement [sampleRow] "a1" (some 77) "77"
        "upvotes" "2024-02-09T01:00:00Z") "a1").map
      Article.engagement_score = some (some 77) ∧
    sampleRow.engagement_score = some 10 := by
  refine ⟨by decide, by decide, by decide, by decide, by decide⟩

/-- The eleven non-engagement columns of two rows agree. -/
def sameNonEngagementColumns (x y : Article) : Prop :=
  x.id = y.id ∧ x.source_type = y.source_type ∧ x.source_name = y.source_name ∧
  x.title = y.title ∧ x.url = y.url ∧ x.content = y.content ∧
  x.author = y.author ∧ x.published_at = y.published_at ∧
  x.fetched_at = y.fetched_at ∧ x.is_read = y.is_read ∧ x.summary = y.summary

/-- C4 amended: the two column sets are not disjoint but identical — the
upsert applied to an already-present id and `updateEngagement` both write
exactly the four engagement columns, and both leave every non-engagement
column (including `is_read` and `summary`) of the row untouched, so the
two writers race only on the engagement fields (last writer wins there). -/
theorem C4_upsert_updateEngagement_same_columns :
    upsertConflictColumns = updateEngagementColumns ∧
    (∀ st (d : ArticleInput) a a', getArticleById st d.id = some a →
      getArticleById (insertArticle st d) d.id = some a' →
      sameNonEngagementColumns a' a) ∧
    (∀ st id score raw ty now a a', getArticleById st id = some a →
      getArticleById (updateEngagement st id score raw ty now) id = some a' →
      sameNonEngagementColumns a' a) := by
  refine ⟨rfl, ?_, ?_⟩
  · intro st d a a' h h'
    rw [getArticleById_insertArticle_of_mem st d a h] at h'
    injection h' with h'
    subst h'
    exact ⟨rfl, rfl, rfl, rfl, rfl, rfl, rfl, rfl, rfl, rfl, rfl⟩
  · intro st id score raw ty now a a' h h'
    rw [getArticleById_updateEngagement_of_mem st id score raw ty now a h] at h'
    injection h' with h'
    subst h'
    exact ⟨rfl, rfl, rfl, rfl, rfl, rfl, rfl, rfl, rfl, rfl, rfl⟩

/-- Witness for the amended C4 at a concrete store. -/
theorem C4_upsert_updateEngagement_same_columns_witness :
    sameNonEngagementColumns (conflictUpdate sampleRow sampleDraft) sampleRow :=
  (C4_upsert_updateEngagement_same_columns).2.1 [sampleRow] sampleDraft
    sampleRow (conflictUpdate sampleRow sampleDraft) (by decide) (by decide)

/-! ## Human-count parsing (src/server/services/engagement.ts,
`parseEngagementNumber`)

A JavaScript number that may be `NaN` is modelled as `Option _` with
`none` standing for `NaN`.  The value produced by `parseFloat` is kept as
an exact decimal fraction `num / 10 ^ d10` (a `Decimal`), so the whole
pipeline stays kernel-computable; `Decimal.toRat` gives its rational
value.  The double-precision rounding of the multiply and the literal
`Infinity` mantissa (which no claim exercises) are outside the model.
String operations work on the character list of the string. -/

/-- Exact decimal fraction `num / 10 ^ d10`, the value a successful JS
`parseFloat` denotes. -/
structure Decimal where
  num : Int
  d10 : Nat
deriving Repr, DecidableEq

/-- Rational value of a `Decimal`. -/
def Decimal.toRat (x : Decimal) : ℚ := (x.num : ℚ) / (10 : ℚ) ^ x.d10

/-- Multiplying a decimal value by an integer scales the numerator. -/
def Decimal.mulInt (x : Decimal) (m : Int) : Decimal := ⟨x.num * m, x.d10⟩

/-- Round half up, `⌊a / b + 1 / 2⌋` for a fraction with positive
denominator `b`, computed on integers as `⌊(2a + b) / 2b⌋`. -/
def roundHalfUp (a : Int) (b : Nat) : Int := (2 * a + (b : Int)) / (2 * (b : Int))

/-- `Math.round` on the value of a `Decimal` (JS `Math.round` rounds half
up). -/
def jsMathRound (x : Decimal) : Int := roundHalfUp x.num (10 ^ x.d10)

/-- Digit list to number, most significant first. -/
def digitsVal (ds : List Char) : Nat :=
  ds.foldl (fun n c => 10 * n + (c.toNat - 48)) 0

/-- JS `String.prototype.trim` on a character list. -/
def trimChars (cs : List Char) : List Char :=
  ((cs.dropWhile Char.isWhitespace).reverse.dropWhile Char.isWhitespace).reverse

/-- The `cleaned` string of `parseEngagementNumber`:
`str.replace(/,/g, '').trim().toLowerCase()`, as a character list. -/
def jsCleaned (str : String) : List Char :=
  (trimChars (str.data.filter (fun c => !(c == ',')))).map Char.toLower

/-- Parse an optional exponent sign and digit run, as in the exponent part
of a JS `StrDecimalLiteral`; `none` when there are no digits (in which
case `parseFloat` does not consume the `e`). -/
def parseExponent (cs : List Char) : Option Int :=
  let (sign, cs1) : Int × List Char :=
    match cs with
    | '-' :: rest => (-1, rest)
    | '+' :: rest => (1, rest)
    | _ => (1, cs)
  let ds := cs1.takeWhile Char.isDigit
  if ds.isEmpty then none else some (sign * (digitsVal ds : Int))

/-- JS `parseFloat`: skip leading whitespace, then parse the longest
prefix of the form `[+-]? digits [. digits?]? ([eE] [+-]? digits)?` (or
`[+-]? . digits ...`); `NaN` (here `none`) when no digits are found.  The
parsed value `sign * (ip + fp / 10 ^ |fp|) * 10 ^ exp` is returned as an
exact `Decimal`. -/
def jsParseFloat (cs0 : List Char) : Option Decimal :=
  let cs := cs0.dropWhile Char.isWhitespace
  let (sign, cs1) : Int × List Char :=
    match cs with
    | '-' :: rest => (-1, rest)
    | '+' :: rest => (1, rest)
    | _ => (1, cs)
  let ip := cs1.takeWhile Char.isDigit
  let cs2 := cs1.dropWhile Char.isDigit
  let (fp, cs3) : List Char × List Char :=
    match cs2 with
    | '.' :: rest => (rest.takeWhile Char.isDigit, rest.dropWhile Char.isDigit)
    | _ => ([], cs2)
  if ip.isEmpty && fp.isEmpty then none
  else
    let mantissa : Int := sign * ((digitsVal ip : Int) * 10 ^ fp.length + digitsVal fp)
    let exp : Int :=
      match cs3 with
      | 'e' :: rest => (parseExponent rest).getD 0
      | 'E' :: rest => (parseExponent rest).getD 0
      | _ => 0
    if 0 ≤ exp then some ⟨mantissa * 10 ^ exp.toNat, fp.length⟩
    else some ⟨mantissa, fp.length + (-exp).toNat⟩

/-- JS `parseInt(s, 10)`: skip leading whitespace, optional sign, then the
longest run of decimal digits; `NaN` (here `none`) when there are none. -/
def jsParseInt (cs0 : List Char) : Option Int :=
  let cs := cs0.dropWhile Char.isWhitespace
  let (sign, cs1) : Int × List Char :=
    match cs with
    | '-' :: rest => (-1, rest)
    | '+' :: rest => (1, rest)
    | _ => (1, cs)
  let ds := cs1.takeWhile Char.isDigit
  if ds.isEmpty then none else some (sign * (digitsVal ds : Int))

/-- `parseEngagementNumber` (engagement.ts): strip commas, trim,
lowercase; check the suffixes `k`, `m`, `b` in that order and round the
`parseFloat`-parsed mantissa times the multiplier; otherwise
`parseInt(cleaned, 10) || 0`.  The result is `none` exactly when the JS
function returns `NaN` (a recognized suffix whose mantissa does not
parse). -/
def parseEngagementNumber (str : String) : Option Int :=
  let cleaned := jsCleaned str
  if cleaned.getLast? == some 'k' then
    (jsParseFloat cleaned.dropLast).map (fun x => jsMathRound (x.mulInt 1000))
  else if cleaned.getLast? == some 'm' then
    (jsParseFloat cleaned.dropLast).map (fun x => jsMathRound (x.mulInt 1000000))
  else if cleaned.getLast? == some 'b' then
    (jsParseFloat cleaned.dropLast).map (fun x => jsMathRound (x.mulInt 1000000000))
  else
    some ((jsParseInt cleaned).getD 0)

/-- `roundHalfUp` really is round-half-up of the fraction: for positive
`b` it equals `round (a / b)` on rationals. -/
theorem roundHalfUp_eq_round (a : Int) (b : Nat) (hb : 0 < b) :
    roundHalfUp a b = round ((a : ℚ) / (b : ℚ)) := by
  have hb' : ((b : ℚ)) ≠ 0 := by positivity
  rw [round_eq, roundHalfUp]
  have hx : (a : ℚ) / (b : ℚ) + 1 / 2 = ((2 * a + (b : Int) : Int) : ℚ) / ((2 * b : ℕ) : ℚ) := by
    push_cast
    field_simp
    ring
  rw [hx, Rat.floor_intCast_div_natCast]
  norm_num

/-- `jsMathRound` really is `Math.round` of the decimal's value. -/
theorem jsMathRound_eq_round (x : Decimal) : jsMathRound x = round x.toRat := by
  rw [jsMathRound, Decimal.toRat, roundHalfUp_eq_round x.num (10 ^ x.d10) (by positivity)]
  norm_num

/-! ### C6 -/

/-- C6 counterexample: the input `"k"` is unparseable, yet
`parseEngagementNumber` does not return `0` for it — the cleaned string
ends in the `k` suffix, `parseFloat` of the empty mantissa is `NaN`, and
`NaN * 1000` rounds to `NaN` (modelled as `none`), which is what the
function returns. -/
theorem C6_counterexample :
    parseEngagementNumber "k" = none ∧ parseEngagementNumber "k" ≠ some 0 := by
  constructor
  · decide
  · decide

/-- C6 (amended): `parseEngagementNumber` never throws; it strips commas
and whitespace, applies the case-insensitive `k`/`m`/`b` suffixes with
rounding, and otherwise parses a plain integer with `0` for unparseable
input; the four documented example values hold.  However an input whose
cleaned form ends in a `k`/`m`/`b` suffix with an unparseable mantissa
returns `NaN` (`none`) rather than `0` — the result is `NaN` exactly in
that case. -/
theorem C6_parseHumanCount (s : String) :
    parseEngagementNumber "1.2M" = some 1200000 ∧
    parseEngagementNumber "15K" = some 15000 ∧
    parseEngagementNumber "1,234" = some 1234 ∧
    parseEngagementNumber "not a number" = some 0 ∧
    (parseEngagementNumber s = none ↔
      (((jsCleaned s).getLast? = some 'k' ∨ (jsCleaned s).getLast? = some 'm' ∨
        (jsCleaned s).getLast? = some 'b') ∧
       jsParseFloat (jsCleaned s).dropLast = none)) := by
  refine ⟨by decide, by decide, by decide, by decide, ?_⟩
  simp only [parseEngagementNumber]
  by_cases hk : (jsCleaned s).getLast? = some 'k'
  · simp [hk, Option.map_eq_none']
  · by_cases hm : (jsCleaned s).getLast? = some 'm'
    · simp [hk, hm, Option.map_eq_none']
    · by_cases hb : (jsCleaned s).getLast? = some 'b'
      · simp [hk, hm, hb, Option.map_eq_none']
      · simp [hk, hm, hb]

/-- Witness for C6 at the concrete input `"k"`. -/
theorem C6_parseHumanCount_witness :
    ((jsCleaned "k").getLast? = some 'k' ∨ (jsCleaned "k").getLast? = some 'm' ∨
      (jsCleaned "k").getLast? = some 'b') ∧
    jsParseFloat (jsCleaned "k").dropLast = none :=
  (C6_parseHumanCount "k").2.2.2.2.mp (by decide)

/-! ## Streaming refresh orchestrator (src/server/index.ts,
`/api/refresh-all-stream`)

Each `data: <json>` line the handler enqueues becomes a `StreamEvent`.
The awaited call of a source route's `/refresh` handler plus the JSON
decode of its body is abstracted as `Except String (Option (List Int))`:
`Except.error` is the `catch` arm (anything in the `try` threw), `Except.ok
r` carries the decoded `result.results` field, `none` when absent, with
the per-feed `count` values otherwise. -/

/-- One server-sent event of the refresh stream. -/
inductive StreamEvent where
  | progress (source status : String) (index total : Nat)
  | complete (source : String) (count : Int) (index total : Nat)
  | error (source errMsg : String) (index total : Nat)
  | engagement (status : String)
  | done
deriving Repr, DecidableEq

/-- The five sources, with their labels, in the order the handler declares
them. -/
def streamSources : List String :=
  ["RSS Feeds", "Podcasts", "Reddit", "Hacker News", "YouTube"]

/-- The one event the body of the per-source `try`/`catch` enqueues after
the `progress` event: on success a `complete` event whose count is
`result.results?.reduce((a, r) => a + r.count, 0) || 0`, on a thrown
error an `error` event. -/
def sourceOutcomeEvent (o : Except String (Option (List Int)))
    (label : String) (i total : Nat) : StreamEvent :=
  match o with
  | .ok r => .complete label ((r.map (fun counts => counts.foldl (· + ·) 0)).getD 0) i total
  | .error e => .error label e i total

/-- The full event list of one `/api/refresh-all-stream` run: for each
source index a `progress`/outcome pair, then the two engagement events,
then `done`, exactly in handler order. -/
def refreshAllStream (fetchOutcome : Nat → Except String (Option (List Int))) :
    List StreamEvent :=
  ((List.range streamSources.length).map (fun i =>
    [StreamEvent.progress (streamSources.getD i "") "fetching" i streamSources.length,
     sourceOutcomeEvent (fetchOutcome i) (streamSources.getD i "") i streamSources.length])).flatten
  ++ [StreamEvent.engagement "calculating", StreamEvent.engagement "complete",
      StreamEvent.done]

/-- Event classifier: is this the terminal `done` event. -/
def StreamEvent.isDone : StreamEvent → Bool
  | .done => true
  | _ => false

/-- Event classifier: is this an `engagement` event. -/
def StreamEvent.isEngagement : StreamEvent → Bool
  | .engagement _ => true
  | _ => false

/-- Event classifier: is this a `progress` event. -/
def StreamEvent.isProgress : StreamEvent → Bool
  | .progress _ _ _ _ => true
  | _ => false

theorem get?_outcome_disj (es : List StreamEvent) (j : Nat)
    (o : Except String (Option (List Int))) (label : String) (i t : Nat)
    (hj : es.get? j = some (sourceOutcomeEvent o label i t)) :
    (∃ n, es.get? j = some (.complete label n i t)) ∨
    (∃ e, es.get? j = some (.error label e i t)) := by
  cases o with
  | ok r => exact Or.inl ⟨_, hj⟩
  | error e => exact Or.inr ⟨e, hj⟩

theorem sourceOutcomeEvent_shape (o : Except String (Option (List Int)))
    (label : String) (i total : Nat) :
    (∃ n, sourceOutcomeEvent o label i total = .complete label n i total) ∨
    (∃ e, sourceOutcomeEvent o label i total = .error label e i total) := by
  cases o with
  | ok r => exact Or.inl ⟨_, rfl⟩
  | error e => exact Or.inr ⟨e, rfl⟩

theorem sourceOutcomeEvent_not_done (o : Except String (Option (List Int)))
    (label : String) (i total : Nat) :
    (sourceOutcomeEvent o label i total).isDone = false := by
  cases o <;> rfl

theorem sourceOutcomeEvent_not_engagement (o : Except String (Option (List Int)))
    (label : String) (i total : Nat) :
    (sourceOutcomeEvent o label i total).isEngagement = false := by
  cases o <;> rfl

theorem sourceOutcomeEvent_not_progress (o : Except String (Option (List Int)))
    (label : String) (i total : Nat) :
    (sourceOutcomeEvent o label i total).isProgress = false := by
  cases o <;> rfl

theorem refreshAllStream_eq (f : Nat → Except String (Option (List Int))) :
    refreshAllStream f =
      [.progress "RSS Feeds" "fetching" 0 5, sourceOutcomeEvent (f 0) "RSS Feeds" 0 5,
       .progress "Podcasts" "fetching" 1 5, sourceOutcomeEvent (f 1) "Podcasts" 1 5,
       .progress "Reddit" "fetching" 2 5, sourceOutcomeEvent (f 2) "Reddit" 2 5,
       .progress "Hacker News" "fetching" 3 5, sourceOutcomeEvent (f 3) "Hacker News" 3 5,
       .progress "YouTube" "fetching" 4 5, sourceOutcomeEvent (f 4) "YouTube" 4 5,
       .engagement "calculating", .engagement "complete", .done] := rfl

/-- C1: every run of the streaming refresh emits, for each of the five
sources in the declared priority order (RSS Feeds, Podcasts, Reddit,
Hacker News, YouTube), one `progress`/`fetching` event followed by exactly
one `complete`-or-`error` event (continuing to the next source even when
one fails), then the two engagement events (`calculating` then
`complete`), then exactly one `done` event, strictly last. -/
theorem C1_stream_event_order (f : Nat → Except String (Option (List Int))) :
    (refreshAllStream f).length = 13 ∧
    (∀ i, i < 5 → (refreshAllStream f).get? (2 * i) =
      some (.progress (streamSources.getD i "") "fetching" i 5)) ∧
    (∀ i, i < 5 →
      (∃ n, (refreshAllStream f).get? (2 * i + 1) =
        some (.complete (streamSources.getD i "") n i 5)) ∨
      (∃ e, (refreshAllStream f).get? (2 * i + 1) =
        some (.error (streamSources.getD i "") e i 5))) ∧
    (refreshAllStream f).get? 10 = some (.engagement "calculating") ∧
    (refreshAllStream f).get? 11 = some (.engagement "complete") ∧
    (refreshAllStream f).get? 12 = some .done ∧
    (refreshAllStream f).getLast? = some .done ∧
    (refreshAllStream f).countP StreamEvent.isDone = 1 ∧
    (refreshAllStream f).countP StreamEvent.isEngagement = 2 ∧
    (refreshAllStream f).countP StreamEvent.isProgress = 5 := by
  rw [refreshAllStream_eq f]
  refine ⟨rfl, ?_, ?_, rfl, rfl, rfl, rfl, ?_, ?_, ?_⟩
  · intro i hi
    interval_cases i <;> rfl
  · intro i hi
    interval_cases i <;> exact get?_outcome_disj _ _ _ _ _ _ rfl
  · simp only [List.countP_cons, List.countP_nil, sourceOutcomeEvent_not_done]
    decide
  · simp only [List.countP_cons, List.countP_nil, sourceOutcomeEvent_not_engagement]
    decide
  · simp only [List.countP_cons, List.countP_nil, sourceOutcomeEvent_not_progress]
    decide

/-- Witness for C1 at a concrete run where Reddit and YouTube fail and
the others succeed. -/
theorem C1_stream_event_order_witness :
    (refreshAllStream (fun i =>
      if i = 2 ∨ i = 4 then Except.error "fetch failed"
      else Except.ok (some [3, 4]))).get? 0 =
        some (StreamEvent.progress (streamSources.getD 0 "") "fetching" 0 5) ∧
    (refreshAllStream (fun i =>
      if i = 2 ∨ i = 4 then Except.error "fetch failed"
      else Except.ok (some [3, 4]))).get? 12 = some StreamEvent.done :=
  ⟨(C1_stream_event_order (fun i =>
      if i = 2 ∨ i = 4 then Except.error "fetch failed"
      else Except.ok (some [3, 4]))).2.1 0 (by norm_num),
   (C1_stream_event_order (fun i =>
      if i = 2 ∨ i = 4 then Except.error "fetch failed"
      else Except.ok (some [3, 4]))).2.2.2.2.2.1⟩

/-! ## RSS feed adapter (src/server/routes/feeds.ts)

`fetchRSSFeed` is embedded as a function of the abstracted remote
interaction: `RemoteOutcome.thrown` is anything inside the `try` throwing
(network failure, `.text()`, XML parse, per-item date conversion),
`RemoteOutcome.badStatus` is a response with `!response.ok`, and
`RemoteOutcome.payload` is a successfully parsed document.  Successful
`new Date(p).toISOString()` conversion is abstracted as the `dateToIso`
parameter. -/

/-- The single-item-or-array shape `fast-xml-parser` produces for
`channel.item` / `feed.entry` (the `Array.isArray` check in the code). -/
inductive OneOrMany (α : Type) where
  | one (item : α)
  | many (items : List α)
deriving Repr, DecidableEq

/-- Normalize `OneOrMany` to a list, as the `Array.isArray` branches do. -/
def OneOrMany.toList {α : Type} : OneOrMany α → List α
  | .one a => [a]
  | .many l => l

/-- One parsed RSS/Atom item (interface `RSSItem` in feeds.ts). -/
structure RSSItem where
  title : Option String
  link : String
  description : Option String
  pubDate : Option String
  dcCreator : Option String
  author : Option String
deriving Repr, DecidableEq

/-- A parsed feed document (interface `RSSFeed` in feeds.ts):
`rss.channel.item` or `feed.entry`, either possibly absent. -/
structure RSSFeedDoc where
  rssItems : Option (OneOrMany RSSItem)
  feedEntries : Option (OneOrMany RSSItem)
deriving Repr, DecidableEq

/-- Outcome of the remote interaction inside `fetchRSSFeed`'s `try`. -/
inductive RemoteOutcome where
  | thrown (msg : String)
  | badStatus (status : Nat)
  | payload (doc : RSSFeedDoc)
deriving Repr, DecidableEq

/-- Is this outcome a remote/parse failure (either a thrown error or a
non-ok HTTP status)? -/
def RemoteOutcome.isFailure : RemoteOutcome → Bool
  | .thrown _ => true
  | .badStatus _ => true
  | .payload _ => false

/-- JS `a || b` for a possibly-absent string `a` and string default `b`
(absent and empty are falsy). -/
def jsOrString (o : Option String) (dflt : String) : String :=
  match o with
  | some s => if s = "" then dflt else s
  | none => dflt

/-- JS `a || null` for a possibly-absent string (absent and empty are
falsy). -/
def jsOrNullString (o : Option String) : Option String :=
  match o with
  | some s => if s = "" then none else some s
  | none => none

/-- Modelled from the spec: `generateArticleId` lives in
src/server/utils/hash.ts, which is not part of the repository snapshot.
The spec says that for sources without a stable native id the article id
is a hash of `(url, title)`; it is modelled as a deterministic function of
the source kind and those two inputs. -/
def generateArticleId (sourceKind url : String) (title : Option String) : String :=
  sourceKind ++ "-" ++ toString (hash (url, title.getD ""))

/-- The item list selection of `fetchRSSFeed`: prefer `rss.channel.item`,
else `feed.entry`, else no items. -/
def rssDocItems (doc : RSSFeedDoc) : List RSSItem :=
  match doc.rssItems with
  | some items => items.toList
  | none =>
    match doc.feedEntries with
    | some entries => entries.toList
    | none => []

/-- The draft built for one RSS item by the `.map` in `fetchRSSFeed`. -/
def mapRSSItem (name now : String) (dateToIso : String → String)
    (item : RSSItem) : ArticleInput :=
  { id := generateArticleId "rss" item.link item.title
    source_type := "rss"
    source_name := name
    title := jsOrString item.title "Untitled"
    url := item.link
    content := jsOrNullString item.description
    author :=
      match jsOrNullString item.dcCreator with
      | some s => some s
      | none => jsOrNullString item.author
    published_at :=
      match item.pubDate with
      | some p => if p = "" then none else some (dateToIso p)
      | none => none
    fetched_at := now
    engagement_score := none
    engagement_raw := none
    engagement_type := none
    engagement_fetched_at := none }

/-- `fetchRSSFeed` (feeds.ts): every failure path inside the function
resolves to the empty list (`!response.ok` returns `[]`, the `catch`
returns `[]`); a parsed document yields the first 20 items mapped to
drafts. -/
def fetchRSSFeed (remote : RemoteOutcome) (name now : String)
    (dateToIso : String → String) : List ArticleInput :=
  match remote with
  | .thrown _ => []
  | .badStatus _ => []
  | .payload doc => ((rssDocItems doc).take 20).map (mapRSSItem name now dateToIso)

/-- One entry of the `results` array the `/refresh` handler returns. -/
structure RefreshResult where
  source : String
  count : Nat
  error : Option String
deriving Repr, DecidableEq

/-- The `/refresh` handler loop of feeds.ts over the enabled rss sources
(`(name, url)` pairs): fetch each feed, insert every draft, and push
`{source, count: articles.length}`.  Within the embedded semantics
nothing in the loop body throws — a remote failure is already swallowed
inside `fetchRSSFeed` — so the `catch` arm that would push
`{source, count: 0, error}` is unreachable and every pushed entry has
`error = none`. -/
def feedsRefresh (remote : String → RemoteOutcome) (now : String)
    (dateToIso : String → String) :
    List (String × String) → Store → Store × List RefreshResult
  | [], st => (st, [])
  | feed :: rest, st =>
    let articles := fetchRSSFeed (remote feed.2) feed.1 now dateToIso
    let res := feedsRefresh remote now dateToIso rest (articles.foldl insertArticle st)
    (res.1, ⟨feed.1, articles.length, none⟩ :: res.2)

theorem feedsRefresh_results_length (remote : String → RemoteOutcome)
    (now : String) (dateToIso : String → String) :
    ∀ (feeds : List (String × String)) (st : Store),
      (feedsRefresh remote now dateToIso feeds st).2.length = feeds.length := by
  intro feeds
  induction feeds with
  | nil => intro st; rfl
  | cons feed rest ih =>
    intro st
    simp only [feedsRefresh, List.length_cons]
    rw [ih]

/-! ### C8 -/

/-- C8 counterexample: a network failure while fetching the one configured
feed is not reported as `{source, count: 0, error: message}` — the error
is swallowed inside `fetchRSSFeed` and the handler reports a plain
`{source, count: 0}` entry with no error field at all (`error = none`). -/
theorem C8_counterexample :
    fetchRSSFeed (.thrown "fetch failed: network down") "Example Feed"
      "2024-02-09T00:00:00Z" id = [] ∧
    (feedsRefresh (fun _ => .thrown "fetch failed: network down")
      "2024-02-09T00:00:00Z" id [("Example Feed", "http://example.com/rss")]
      []).2 = [⟨"Example Feed", 0, none⟩] :=
  ⟨rfl, rfl⟩

/-- C8 (amended): for every configured source and any remote or parse
failure during its fetch, the adapter never throws: the failure is caught
inside `fetchRSSFeed`, which returns an empty article list, and the
refresh handler reports that source to the caller as `{source: name,
count: 0}` with no error message (the `error` field would only be set if
the handler's own loop body threw); the run still produces one result per
configured source, so one failing source never blocks the others. -/
theorem C8_adapter_failure_isolated (remote : String → RemoteOutcome)
    (now : String) (dateToIso : String → String)
    (feeds : List (String × String)) (st : Store) :
    (feedsRefresh remote now dateToIso feeds st).2.length = feeds.length ∧
    (∀ (o : RemoteOutcome) (name now2 : String) (d2 : String → String),
      o.isFailure = true → fetchRSSFeed o name now2 d2 = []) ∧
    (∀ i (hi : i < feeds.length),
      (remote (feeds.get ⟨i, hi⟩).2).isFailure = true →
      (feedsRefresh remote now dateToIso feeds st).2.get? i =
        some ⟨(feeds.get ⟨i, hi⟩).1, 0, none⟩) := by
  refine ⟨feedsRefresh_results_length remote now dateToIso feeds st, ?_, ?_⟩
  · intro o name now2 d2 ho
    cases o with
    | thrown m => rfl
    | badStatus s => rfl
    | payload doc => simp [RemoteOutcome.isFailure] at ho
  · induction feeds generalizing st with
    | nil => intro i hi; simp at hi
    | cons feed rest ih =>
      intro i hi hfail
      cases i with
      | zero =>
        simp only [List.get] at hfail
        have hempty : fetchRSSFeed (remote feed.2) feed.1 now dateToIso = [] := by
          cases hr : remote feed.2 with
          | thrown m => rfl
          | badStatus s => rfl
          | payload doc => rw [hr] at hfail; simp [RemoteOutcome.isFailure] at hfail
        simp only [feedsRefresh, List.get, List.get?]
        rw [hempty]
        rfl
      | succ j =>
        simp only [List.get] at hfail
        simp only [feedsRefresh, List.get?]
        exact ih _ j (Nat.lt_of_succ_lt_succ hi) hfail

/-- Witness for the amended C8: one configured feed whose fetch throws. -/
theorem C8_adapter_failure_isolated_witness :
    (feedsRefresh (fun _ => .thrown "boom") "2024-02-09T00:00:00Z" id
      [("Example Feed", "http://example.com/rss")] []).2.get? 0 =
      some ⟨"Example Feed", 0, none⟩ :=
  (C8_adapter_failure_isolated (fun _ => .thrown "boom") "2024-02-09T00:00:00Z"
    id [("Example Feed", "http://example.com/rss")] []).2.2 0 (by decide) (by decide)

/-! ## Client visibility queue (src/client/hooks/useAutoSummarize.ts)

The hook's mutable refs become an explicit state: the keys of the
`elementRefs` map, the contents of the `visibleIds` set, and the
`processingRef`/`abortRef` flags.  Its mutation entry points become
events: `registerRef` with an element / with `null`, an
`IntersectionObserver` callback entry that is / is not intersecting, and
the `[articles]` effect body that runs when the article list identity
changes. -/

/-- An article as the hook sees it (interface `Article` in useNews.ts);
only the fields the queue reads.  `content`/`summary` are nullable
strings, compared by JS truthiness (absent and empty are falsy). -/
structure HookArticle where
  id : String
  content : Option String
  summary : Option String
deriving Repr, DecidableEq

/-- JS truthiness of a nullable string: `null`/`undefined` and `""` are
falsy. -/
def jsTruthyStr (o : Option String) : Bool :=
  match o with
  | some s => !(s == "")
  | none => false

/-- `Set.add`: insert if absent. -/
def setAdd (s : List String) (x : String) : List String :=
  if x ∈ s then s else x :: s

/-- `Set.delete` / `Map.delete`: remove the one matching key. -/
def setDelete (s : List String) (x : String) : List String :=
  s.filter (fun y => y ≠ x)

/-- The hook's mutable tracking state. -/
structure VisibilityState where
  elementRefs : List String
  visibleIds : List String
  processing : Bool
  abort : Bool
deriving Repr, DecidableEq

/-- The mutation entry points of the hook. -/
inductive VisibilityEvent where
  | register (id : String)
  | unregister (id : String)
  | observeEnter (id : String)
  | observeExit (id : String)
  | articlesChange
deriving Repr, DecidableEq

/-- One mutation step of the hook state:
`register` is `registerRef(id, element)` (store the element and observe
it); `unregister` is `registerRef(id, null)` (unobserve, drop the element
entry, and delete the id from `visibleIds`); `observeEnter`/`observeExit`
are the `IntersectionObserver` callback adding/deleting the entry's id;
`articlesChange` is the `[articles]` effect body, which resets
`abortRef`/`processingRef` and re-observes existing elements but — per
the comment in the code — deliberately does not clear `visibleIds`. -/
def visibilityStep (s : VisibilityState) : VisibilityEvent → VisibilityState
  | .register id => { s with elementRefs := setAdd s.elementRefs id }
  | .unregister id =>
    { s with
      elementRefs := setDelete s.elementRefs id
      visibleIds := setDelete s.visibleIds id }
  | .observeEnter id => { s with visibleIds := setAdd s.visibleIds id }
  | .observeExit id => { s with visibleIds := setDelete s.visibleIds id }
  | .articlesChange => { s with processing := false, abort := false }

/-- The candidate filter of `processQueue`:
`articles.filter(a => visibleIds.current.has(a.id) && !a.summary && a.content)`. -/
def unsummarizedVisible (articles : List HookArticle) (visible : List String) :
    List HookArticle :=
  articles.filter (fun a =>
    visible.contains a.id && !jsTruthyStr a.summary && jsTruthyStr a.content)

/-- The ids `processQueue` requests summaries for in one drain (the loop
walks every candidate; a failed `summarize` is logged and the loop
continues). -/
def processQueueRequests (articles : List HookArticle) (visible : List String) :
    List String :=
  (unsummarizedVisible articles visible).map (fun a => a.id)

/-! ### C9 -/

/-- C9: the visible-id set is never cleared wholesale when the article
list changes — the `articlesChange` step leaves `visibleIds` untouched,
an id leaves the set only through its own `unregister` or `observeExit`
event, and immediately after a list change every still-visible,
content-bearing, unsummarized article of the new list is a candidate of
the next drain. -/
theorem C9_visibility_not_cleared (s : VisibilityState)
    (articles : List HookArticle) :
    (visibilityStep s .articlesChange).visibleIds = s.visibleIds ∧
    (∀ e x, x ∈ s.visibleIds → x ∉ (visibilityStep s e).visibleIds →
      e = .unregister x ∨ e = .observeExit x) ∧
    (∀ a, a ∈ articles → a.id ∈ s.visibleIds → jsTruthyStr a.content = true →
      jsTruthyStr a.summary = false →
      a.id ∈ processQueueRequests articles
        (visibilityStep s .articlesChange).visibleIds) := by
  refine ⟨rfl, ?_, ?_⟩
  · intro e x hx hx'
    cases e with
    | register id => exact absurd hx hx'
    | unregister id =>
      by_cases hxy : x = id
      · exact Or.inl (by rw [hxy])
      · exact absurd (List.mem_filter.mpr ⟨hx, by simp [hxy]⟩) hx'
    | observeEnter id =>
      refine absurd ?_ hx'
      simp only [visibilityStep, setAdd]
      split
      · exact hx
      · exact List.mem_cons_of_mem _ hx
    | observeExit id =>
      by_cases hxy : x = id
      · exact Or.inr (by rw [hxy])
      · exact absurd (List.mem_filter.mpr ⟨hx, by simp [hxy]⟩) hx'
    | articlesChange => exact absurd hx hx'
  · intro a ha hvis hcontent hsummary
    refine List.mem_map.mpr ⟨a, ?_, rfl⟩
    refine List.mem_filter.mpr ⟨ha, ?_⟩
    simp only [visibilityStep]
    simp [List.elem_iff, hvis, hcontent, hsummary]

/-- Witness for C9: two visible articles with content and no summary are
both requested after a list change. -/
theorem C9_visibility_not_cleared_witness :
    ("a1" : String) ∈ processQueueRequests
      [⟨"a1", some "text one", none⟩, ⟨"a2", some "text two", none⟩]
      (visibilityStep ⟨["a1", "a2"], ["a1", "a2"], false, false⟩
        .articlesChange).visibleIds :=
  (C9_visibility_not_cleared ⟨["a1", "a2"], ["a1", "a2"], false, false⟩
    [⟨"a1", some "text one", none⟩, ⟨"a2", some "text two", none⟩]).2.2
    ⟨"a1", some "text one", none⟩ (by decide) (by decide) (by decide) (by decide)

/-! ## Article listing (src/server/db/schema.ts, `getArticles`)

The SQL `SELECT ... WHERE ... ORDER BY ... LIMIT ? OFFSET ?` over the
table contents becomes filter, sort, drop, take over the row list.
SQLite orders NULL before any text, and compares TEXT by byte order,
which on UTF-8 agrees with Lean's `String` order; `ORDER BY ... DESC`
therefore puts NULL `published_at` last.  The `getTimePeriodFilter`
boundary is computed from the wall clock in the source, so the ISO cutoff
string it would produce is a parameter here (`none` models the empty
filter of `'all'`). -/

/-- `SortOrder` (schema.ts). -/
inductive SortOrder where
  | recent
  | top
deriving Repr, DecidableEq

/-- `TimePeriod` (schema.ts). -/
inductive TimePeriod where
  | day
  | week
  | month
  | year
  | all
deriving Repr, DecidableEq

/-- `getTimePeriodFilter` (schema.ts): `'all'` adds no condition; the
other periods add `published_at >= cutoff` where the cutoff ISO string is
computed from the current clock, abstracted as `isoCutoff`. -/
def getTimePeriodFilter (isoCutoff : TimePeriod → String) :
    TimePeriod → Option String
  | .all => none
  | p => some (isoCutoff p)

/-- `COALESCE(engagement_score, 0)`. -/
def effectiveScore (a : Article) : Int := a.engagement_score.getD 0

/-- SQLite ascending order on a nullable TEXT column: NULL sorts before
any text, text sorts by byte order. -/
def sqliteTextLe (x y : Option String) : Bool :=
  match x, y with
  | none, _ => true
  | some _, none => false
  | some a, some b => decide (a ≤ b)

/-- `ORDER BY COALESCE(engagement_score, 0) DESC, published_at DESC` as a
"may come before" relation: higher effective score first, ties broken by
later publish date first. -/
def topLe (a b : Article) : Bool :=
  if effectiveScore a = effectiveScore b then
    sqliteTextLe b.published_at a.published_at
  else
    decide (effectiveScore b < effectiveScore a)

/-- `ORDER BY published_at DESC` as a "may come before" relation. -/
def recentLe (a b : Article) : Bool :=
  sqliteTextLe b.published_at a.published_at

/-- The `published_at >= cutoff` condition (NULL `published_at` fails the
comparison and is filtered out). -/
def periodPasses (cutoff : Option String) (a : Article) : Bool :=
  match cutoff with
  | none => true
  | some c =>
    match a.published_at with
    | none => false
    | some p => decide (c ≤ p)

/-- `getArticles` (schema.ts): optional `source_type` filter, the time
filter (applied only for `sort = 'top'`, as in the source), the ORDER BY,
then OFFSET and LIMIT. -/
def getArticles (rows : List Article) (sourceType : Option String)
    (limit offset : Nat) (sort : SortOrder) (timePeriod : TimePeriod)
    (isoCutoff : TimePeriod → String) : List Article :=
  let timeFilter : Article → Bool :=
    match sort with
    | .top => periodPasses (getTimePeriodFilter isoCutoff timePeriod)
    | .recent => fun _ => true
  let filtered := rows.filter (fun a =>
    (match sourceType with
     | none => true
     | some t => a.source_type == t) && timeFilter a)
  let ordered :=
    match sort with
    | .top => filtered.mergeSort topLe
    | .recent => filtered.mergeSort recentLe
  (ordered.drop offset).take limit

theorem sqliteTextLe_trans (x y z : Option String)
    (hxy : sqliteTextLe x y = true) (hyz : sqliteTextLe y z = true) :
    sqliteTextLe x z = true := by
  cases x with
  | none => rfl
  | some a =>
    cases y with
    | none => simp [sqliteTextLe] at hxy
    | some b =>
      cases z with
      | none => simp [sqliteTextLe] at hyz
      | some c =>
        simp only [sqliteTextLe, decide_eq_true_eq] at hxy hyz ⊢
        exact le_trans hxy hyz

theorem sqliteTextLe_total (x y : Option String) :
    (sqliteTextLe x y || sqliteTextLe y x) = true := by
  cases x with
  | none => rfl
  | some a =>
    cases y with
    | none => rfl
    | some b =>
      simp only [sqliteTextLe, Bool.or_eq_true, decide_eq_true_eq]
      exact le_total a b

theorem topLe_trans (a b c : Article) (hab : topLe a b = true)
    (hbc : topLe b c = true) : topLe a c = true := by
  unfold topLe at hab hbc ⊢
  by_cases h1 : effectiveScore a = effectiveScore b
  · rw [if_pos h1] at hab
    by_cases h2 : effectiveScore b = effectiveScore c
    · rw [if_pos h2] at hbc
      rw [if_pos (h1.trans h2)]
      exact sqliteTextLe_trans _ _ _ hbc hab
    · rw [if_neg h2] at hbc
      simp only [decide_eq_true_eq] at hbc
      rw [if_neg (by omega)]
      simp only [decide_eq_true_eq]
      omega
  · rw [if_neg h1] at hab
    simp only [decide_eq_true_eq] at hab
    by_cases h2 : effectiveScore b = effectiveScore c
    · rw [if_neg (by omega)]
      simp only [decide_eq_true_eq]
      omega
    · rw [if_neg h2] at hbc
      simp only [decide_eq_true_eq] at hbc
      rw [if_neg (by omega)]
      simp only [decide_eq_true_eq]
      omega

theorem topLe_total (a b : Article) : (topLe a b || topLe b a) = true := by
  unfold topLe
  by_cases h : effectiveScore a = effectiveScore b
  · rw [if_pos h, if_pos h.symm]
    exact sqliteTextLe_total b.published_at a.published_at
  · rw [if_neg h, if_neg (fun hc => h hc.symm)]
    simp only [Bool.or_eq_true, decide_eq_true_eq]
    omega

/-! ### C10 -/

/-- C10: `getArticles` with `sort = 'top'` returns articles ordered by
effective engagement score (absent treated as 0) descending, then
`publishedAt` descending: for any two returned positions `i < j`, either
the earlier article's effective score is strictly greater, or the scores
tie and the earlier article's publish date is at least the later one's —
score always dominates publish date. -/
theorem C10_top_sort_order (rows : List Article) (sourceType : Option String)
    (limit offset : Nat) (timePeriod : TimePeriod)
    (isoCutoff : TimePeriod → String) :
    List.Pairwise
      (fun a b => effectiveScore b < effectiveScore a ∨
        (effectiveScore a = effectiveScore b ∧
          sqliteTextLe b.published_at a.published_at = true))
      (getArticles rows sourceType limit offset .top timePeriod isoCutoff) ∧
    (∀ i j, i < j → ∀ a b,
      (getArticles rows sourceType limit offset .top timePeriod isoCutoff).get? i
        = some a →
      (getArticles rows sourceType limit offset .top timePeriod isoCutoff).get? j
        = some b →
      effectiveScore b ≤ effectiveScore a) := by
  have heq : getArticles rows sourceType limit offset .top timePeriod isoCutoff =
      ((((rows.filter (fun a =>
          (match sourceType with
           | none => true
           | some t => a.source_type == t) &&
          periodPasses (getTimePeriodFilter isoCutoff timePeriod) a)).mergeSort
            topLe).drop offset).take limit) := rfl
  have hsorted : List.Pairwise (fun a b => topLe a b = true)
      (getArticles rows sourceType limit offset .top timePeriod isoCutoff) := by
    rw [heq]
    exact List.Pairwise.sublist
      ((List.take_sublist _ _).trans (List.drop_sublist _ _))
      (List.sorted_mergeSort topLe_trans topLe_total _)
  have hp : List.Pairwise
      (fun a b => effectiveScore b < effectiveScore a ∨
        (effectiveScore a = effectiveScore b ∧
          sqliteTextLe b.published_at a.published_at = true))
      (getArticles rows sourceType limit offset .top timePeriod isoCutoff) := by
    refine hsorted.imp ?_
    intro a b hab
    unfold topLe at hab
    by_cases h : effectiveScore a = effectiveScore b
    · rw [if_pos h] at hab
      exact Or.inr ⟨h, hab⟩
    · rw [if_neg h] at hab
      simp only [decide_eq_true_eq] at hab
      exact Or.inl hab
  refine ⟨hp, ?_⟩
  intro i j hij a b ha hb
  obtain ⟨hi, ha'⟩ := List.get?_eq_some.mp ha
  obtain ⟨hj, hb'⟩ := List.get?_eq_some.mp hb
  have := List.pairwise_iff_get.mp hp ⟨i, hi⟩ ⟨j, hj⟩ hij
  rw [ha', hb'] at this
  rcases this with h | ⟨h, _⟩
  · exact le_of_lt h
  · exact le_of_eq h.symm

/-- A second stored row with a higher engagement score but an older
publish date than `sampleRow`'s. -/
def topRow : Article :=
  { id := "a2"
    source_type := "reddit"
    source_name := "r/test"
    title := "Hot post"
    url := "http://example.com/2"
    content := none
    author := none
    published_at := some "2024-01-01T00:00:00Z"
    fetched_at := "2024-01-03T00:00:00Z"
    is_read := 0
    summary := none
    engagement_score := some 90
    engagement_raw := some "5000"
    engagement_type := some "upvotes"
    engagement_fetched_at := some "2024-01-03T00:00:00Z" }

/-- Witness for C10: in the two-row store the higher-scored row comes
first even though its publish date is older. -/
theorem C10_top_sort_order_witness :
    effectiveScore sampleRow ≤ effectiveScore topRow := by
  have h0 : (getArticles [sampleRow, topRow] none 100 0 .top .all
      (fun _ => "")).get? 0 = some topRow := by
    simp [getArticles, List.mergeSort, topLe, effectiveScore, sampleRow, topRow,
      periodPasses, getTimePeriodFilter, sqliteTextLe]
  have h1 : (getArticles [sampleRow, topRow] none 100 0 .top .all
      (fun _ => "")).get? 1 = some sampleRow := by
    simp [getArticles, List.mergeSort, topLe, effectiveScore, sampleRow, topRow,
      periodPasses, getTimePeriodFilter, sqliteTextLe]
  exact (C10_top_sort_order [sampleRow, topRow] none 100 0 .all
    (fun _ => "")).2 0 1 (by norm_num) topRow sampleRow h0 h1

/-! ## Engagement normalizer (src/server/services/engagement.ts,
`normalizeEngagement`)

JS numbers flowing through `Math.log10` are modelled as reals and
`Math.round` as round half up (which is Mathlib's `round`). -/

noncomputable section

/-- `NORMALIZATION_SCALES` (engagement.ts): the per-source reference
scale record. -/
def NORMALIZATION_SCALES (sourceType : String) : Option ℝ :=
  if sourceType = "reddit" then some 10000
  else if sourceType = "hackernews" then some 500
  else if sourceType = "youtube" then some 1000000
  else if sourceType = "rss" then some 1000
  else if sourceType = "podcast" then some 1000
  else none

/-- `NORMALIZATION_SCALES[sourceType] || 1000`; every configured scale is
nonzero, so the `||` only supplies the missing-key default. -/
def scaleFor (sourceType : String) : ℝ :=
  (NORMALIZATION_SCALES sourceType).getD 1000

/-- `normalizeEngagement` (engagement.ts): `raw <= 0` gives 0, otherwise
`Math.min(100, Math.round((log10(raw + 1) / log10(scale + 1)) * 100))`. -/
def normalizeEngagement (raw : ℝ) (sourceType : String) : ℤ :=
  if raw ≤ 0 then 0
  else
    min 100 (round (Real.logb 10 (raw + 1) / Real.logb 10 (scaleFor sourceType + 1) * 100))

/-- The reference formula the spec states for the score:
`round(min(100, 100 * log10(raw+1) / log10(scale+1)))`, with 0 for
`raw <= 0`. -/
def specNormalize (raw : ℝ) (sourceType : String) : ℤ :=
  if raw ≤ 0 then 0
  else
    round (min 100 (100 * Real.logb 10 (raw + 1) / Real.logb 10 (scaleFor sourceType + 1)))

end

theorem scaleFor_ge (t : String) : (500 : ℝ) ≤ scaleFor t := by
  unfold scaleFor NORMALIZATION_SCALES
  split_ifs <;> norm_num

theorem round_le_round_of_le {x y : ℝ} (h : x ≤ y) : round x ≤ round y := by
  rw [round_eq, round_eq]
  exact Int.floor_le_floor (by linarith)

theorem round_hundred : round (100 : ℝ) = 100 := by
  rw [round_eq]
  norm_num

theorem round_min_hundred (x : ℝ) :
    round (min (100 : ℝ) x) = min 100 (round x) := by
  rcases le_total x (100 : ℝ) with h | h
  · rw [min_eq_right h]
    have hx : round x ≤ round (100 : ℝ) := round_le_round_of_le h
    rw [round_hundred] at hx
    rw [min_eq_right hx]
  · rw [min_eq_left h]
    have hx : round (100 : ℝ) ≤ round x := round_le_round_of_le h
    rw [round_hundred] at hx
    rw [min_eq_left hx, round_hundred]

/-! ### C7 -/

/-- C7: for every raw value and source type the code's score equals the
spec's reference formula `round(min(100, 100*log10(raw+1)/log10(scale+1)))`
(0 for `raw ≤ 0`) with the per-type scales 10000/500/1000000 and default
1000; consequently the score is 100 for every `raw ≥ scale`. -/
theorem C7_normalize_matches_reference (raw : ℝ) (t : String) :
    normalizeEngagement raw t = specNormalize raw t ∧
    (scaleFor t ≤ raw → normalizeEngagement raw t = 100) := by
  have hs : (500 : ℝ) ≤ scaleFor t := scaleFor_ge t
  have hslog : 0 < Real.logb 10 (scaleFor t + 1) :=
    Real.logb_pos (by norm_num) (by linarith)
  constructor
  · unfold normalizeEngagement specNormalize
    by_cases h : raw ≤ 0
    · rw [if_pos h, if_pos h]
    · rw [if_neg h, if_neg h]
      rw [show (100 : ℝ) * Real.logb 10 (raw + 1) / Real.logb 10 (scaleFor t + 1) =
        Real.logb 10 (raw + 1) / Real.logb 10 (scaleFor t + 1) * 100 from by ring]
      rw [round_min_hundred]
  · intro hraw
    have hrawpos : 0 < raw := lt_of_lt_of_le (by linarith) hraw
    unfold normalizeEngagement
    rw [if_neg (not_le.mpr hrawpos)]
    have hlog_le : Real.logb 10 (scaleFor t + 1) ≤ Real.logb 10 (raw + 1) :=
      Real.logb_le_logb_of_le (by norm_num) (by linarith) (by linarith)
    have hratio : (1 : ℝ) ≤ Real.logb 10 (raw + 1) / Real.logb 10 (scaleFor t + 1) :=
      (one_le_div hslog).mpr hlog_le
    have hge : (100 : ℝ) ≤
        Real.logb 10 (raw + 1) / Real.logb 10 (scaleFor t + 1) * 100 := by nlinarith
    have h100 : (100 : ℤ) ≤
        round (Real.logb 10 (raw + 1) / Real.logb 10 (scaleFor t + 1) * 100) := by
      have := round_le_round_of_le hge
      rwa [round_hundred] at this
    exact min_eq_left h100

/-- Witness for C7: a raw count equal to the reddit scale scores 100. -/
theorem C7_normalize_matches_reference_witness :
    normalizeEngagement 10000 "reddit" = 100 :=
  (C7_normalize_matches_reference 10000 "reddit").2
    (by norm_num [scaleFor, NORMALIZATION_SCALES])

/-! ## Adapter drafts and the lazy engagement path

The drafts each route builds before calling `insertArticle`, and the
engagement result the LLM extraction produces before `updateEngagement`.
`new Date(...).toISOString()` conversions are abstracted as function
parameters (`isoOfEpochMs`, `dateToIso`); the HTML-tag stripping of the
podcast description is abstracted as `stripHtml`. -/

/-- `RedditPost['data']` (reddit.ts), the fields the adapter reads. -/
structure RedditPostData where
  id : String
  title : String
  url : String
  selftext : String
  author : String
  created_utc : Int
  subreddit : String
  score : Int
  num_comments : Int
deriving Repr, DecidableEq

/-- The draft built per post by `fetchSubreddit` (reddit.ts): engagement
is computed inline via the normalizer. -/
noncomputable def redditArticleInput (post : RedditPostData)
    (isoOfEpochMs : Int → String) (now : String) : ArticleInput :=
  { id := "reddit-" ++ post.id
    source_type := "reddit"
    source_name := "r/" ++ post.subreddit
    title := post.title
    url :=
      if post.url.startsWith "/r/" then "https://reddit.com" ++ post.url
      else post.url
    content := jsOrNullString (some post.selftext)
    author := some post.author
    published_at := some (isoOfEpochMs (post.created_utc * 1000))
    fetched_at := now
    engagement_score := some (normalizeEngagement (post.score : ℝ) "reddit")
    engagement_raw := some (toString post.score)
    engagement_type := some "upvotes"
    engagement_fetched_at := some now }

/-- `HNItem` (hackernews.ts).  The JSON field `by` is called `byAuthor`
here because `by` is a Lean keyword; `type` is `itemType` likewise for
clarity. -/
structure HNItemData where
  id : Int
  title : String
  url : Option String
  text : Option String
  byAuthor : String
  time : Int
  itemType : String
  score : Option Int
deriving Repr, DecidableEq

/-- The article built per accepted story by the hackernews `/refresh`
handler: `score = item.score || 0`, engagement computed inline via the
normalizer. -/
noncomputable def hnArticleInput (item : HNItemData)
    (isoOfEpochMs : Int → String) (now : String) : ArticleInput :=
  let score := item.score.getD 0
  { id := "hn-" ++ toString item.id
    source_type := "hackernews"
    source_name := "Hacker News"
    title := item.title
    url := jsOrString item.url ("https://news.ycombinator.com/item?id=" ++ toString item.id)
    content := jsOrNullString item.text
    author := some item.byAuthor
    published_at := some (isoOfEpochMs (item.time * 1000))
    fetched_at := now
    engagement_score := some (normalizeEngagement (score : ℝ) "hackernews")
    engagement_raw := some (toString score)
    engagement_type := some "points"
    engagement_fetched_at := some now }

/-- A YouTube feed entry (youtube.ts `YouTubeEntry`), the fields the
adapter reads. -/
structure YouTubeEntry where
  videoId : String
  title : String
  published : Option String
  authorName : Option String
  mediaDescription : Option String
deriving Repr, DecidableEq

/-- The draft built per entry by `fetchYouTubeFeed` (youtube.ts):
engagement is deferred, so all four engagement fields start `null`. -/
def youtubeArticleInput (entry : YouTubeEntry) (name : String)
    (dateToIso : String → String) (now : String) : ArticleInput :=
  { id := "youtube-" ++ entry.videoId
    source_type := "youtube"
    source_name := name
    title := entry.title
    url := "https://www.youtube.com/watch?v=" ++ entry.videoId
    content := jsOrNullString entry.mediaDescription
    author := some (jsOrString entry.authorName name)
    published_at :=
      match entry.published with
      | some p => if p = "" then none else some (dateToIso p)
      | none => none
    fetched_at := now
    engagement_score := none
    engagement_raw := none
    engagement_type := none
    engagement_fetched_at := none }

/-- The `guid` field of a podcast item: either a plain string or an
object whose `#text` member holds the value (part of feeds parsing in
podcasts.ts). -/
inductive PodcastGuid where
  | str (s : String)
  | obj (text : String)
deriving Repr, DecidableEq

/-- The `typeof item.guid === 'object' ? item.guid['#text'] : item.guid`
normalization. -/
def PodcastGuid.value : PodcastGuid → String
  | .str s => s
  | .obj t => t

/-- A podcast feed item (podcasts.ts `PodcastItem`), the fields the
adapter reads. -/
structure PodcastItem where
  title : Option String
  link : Option String
  guid : Option PodcastGuid
  description : Option String
  pubDate : Option String
  itunesAuthor : Option String
  enclosureUrl : Option String
deriving Repr, DecidableEq

/-- The draft built per item by `fetchPodcastFeed` (podcasts.ts):
`episodeUrl = item.link || enclosure url || guid || ''`, the description
is tag-stripped and truncated to 1000 characters, engagement is absent. -/
def podcastArticleInput (item : PodcastItem) (name : String)
    (stripHtml : String → String) (dateToIso : String → String)
    (now : String) : ArticleInput :=
  let episodeUrl :=
    match jsOrNullString item.link with
    | some s => s
    | none =>
      match jsOrNullString item.enclosureUrl with
      | some s => s
      | none =>
        match jsOrNullString (item.guid.map PodcastGuid.value) with
        | some s => s
        | none => ""
  { id := generateArticleId "podcast" episodeUrl item.title
    source_type := "podcast"
    source_name := name
    title := jsOrString item.title "Untitled Episode"
    url := episodeUrl
    content :=
      match item.description with
      | some d => jsOrNullString (some (((stripHtml d).take 1000)))
      | none => none
    author := jsOrNullString item.itunesAuthor
    published_at :=
      match item.pubDate with
      | some p => if p = "" then none else some (dateToIso p)
      | none => none
    fetched_at := now
    engagement_score := none
    engagement_raw := none
    engagement_type := none
    engagement_fetched_at := none }

/-- `EngagementResult` (engagement.ts).  `score` is a JS number that can
be `NaN` (modelled `none`); when `updateEngagement` binds `NaN`, SQLite
stores NULL. -/
structure EngagementResult where
  score : Option Int
  raw : String
  type : String
deriving Repr, DecidableEq

/-- The decision tail of `extractEngagementWithLLM` (engagement.ts lines
181-194) after the LLM's JSON has been parsed into `found`/`raw`/`type`:
reject when nothing was found or the raw field is falsy; parse the raw
count; `rawNumber === 0` rejects; otherwise normalize.  A `NaN` raw count
(`parseEngagementNumber` returned `none`) fails the `=== 0` check and
produces a `NaN` score. -/
noncomputable def llmEngagementResult (found : Bool) (raw ty : Option String)
    (sourceType : String) : Option EngagementResult :=
  if found = false then none
  else
    match jsOrNullString raw with
    | none => none
    | some r =>
      match parseEngagementNumber r with
      | some n =>
        if n = 0 then none
        else some ⟨some (normalizeEngagement (n : ℝ) sourceType), r, jsOrString ty "unknown"⟩
      | none => some ⟨none, r, jsOrString ty "unknown"⟩

/-- Modelled from the spec: `extractYouTubeViews` is imported by
youtube.ts from the engagement service but its definition is missing from
the repository snapshot.  Per the spec, the secondary YouTube scrape
yields a view count which is normalized by the Engagement Normalizer;
modelled as normalizing the scraped count when one was found. -/
noncomputable def extractYouTubeViews (views : Option Int) : Option EngagementResult :=
  views.map (fun (v : Int) =>
    ⟨some (normalizeEngagement (v : ℝ) "youtube"), toString v, "views"⟩)

/-- The in-place mutation youtube.ts performs on a draft when the inline
engagement fetch succeeds, before `insertArticle`. -/
def applyEngagementToDraft (a : ArticleInput) (e : EngagementResult)
    (ts : String) : ArticleInput :=
  { a with
    engagement_score := e.score
    engagement_raw := some e.raw
    engagement_type := some e.type
    engagement_fetched_at := some ts }

/-! ## Store write operations and the score invariant -/

/-- The write operations of the store surface. -/
inductive StoreOp where
  | upsert (d : ArticleInput)
  | updEngagement (id : String) (score : Option Int) (raw ty now : String)
  | read (id : String)
  | unread (id : String)
  | setSummary (id text : String)

/-- Apply one write operation. -/
def applyOp (st : Store) : StoreOp → Store
  | .upsert d => insertArticle st d
  | .updEngagement id score raw ty now => updateEngagement st id score raw ty now
  | .read id => markAsRead st id
  | .unread id => markAsUnread st id
  | .setSummary id text => saveSummary st id text

/-- The write operations the program actually performs: upserts of the
drafts the five adapters build, `updateEngagement` fed by the lazy LLM
extraction path, and the read/summary updates. -/
inductive ProgramOp : StoreOp → Prop where
  | rss (name now : String) (dateToIso : String → String) (item : RSSItem) :
      ProgramOp (.upsert (mapRSSItem name now dateToIso item))
  | podcast (item : PodcastItem) (name : String)
      (stripHtml dateToIso : String → String) (now : String) :
      ProgramOp (.upsert (podcastArticleInput item name stripHtml dateToIso now))
  | reddit (post : RedditPostData) (isoOfEpochMs : Int → String) (now : String) :
      ProgramOp (.upsert (redditArticleInput post isoOfEpochMs now))
  | hackernews (item : HNItemData) (isoOfEpochMs : Int → String) (now : String) :
      ProgramOp (.upsert (hnArticleInput item isoOfEpochMs now))
  | youtubeDeferred (entry : YouTubeEntry) (name : String)
      (dateToIso : String → String) (now : String) :
      ProgramOp (.upsert (youtubeArticleInput entry name dateToIso now))
  | youtubeInline (entry : YouTubeEntry) (name : String)
      (dateToIso : String → String) (now ts : String) (views : Option Int)
      (e : EngagementResult) (he : extractYouTubeViews views = some e) :
      ProgramOp (.upsert
        (applyEngagementToDraft (youtubeArticleInput entry name dateToIso now) e ts))
  | lazyEngagement (id : String) (found : Bool) (raw ty : Option String)
      (sourceType : String) (e : EngagementResult) (now : String)
      (he : llmEngagementResult found raw ty sourceType = some e) :
      ProgramOp (.updEngagement id e.score e.raw e.type now)
  | read (id : String) : ProgramOp (.read id)
  | unread (id : String) : ProgramOp (.unread id)
  | setSummary (id text : String) : ProgramOp (.setSummary id text)

/-- A nullable engagement score that is absent or an integer in
`[0, 100]`. -/
def OptScoreOk (s : Option Int) : Prop :=
  s = none ∨ ∃ n, s = some n ∧ 0 ≤ n ∧ n ≤ 100

/-- Row invariant: the stored engagement score is absent or in
`[0, 100]`. -/
def scoreOk (a : Article) : Prop := OptScoreOk a.engagement_score

/-- Store invariant: every row satisfies `scoreOk`. -/
def storeOk (st : Store) : Prop := ∀ a ∈ st, scoreOk a

theorem normalizeEngagement_range (raw : ℝ) (t : String) :
    0 ≤ normalizeEngagement raw t ∧ normalizeEngagement raw t ≤ 100 := by
  unfold normalizeEngagement
  by_cases h : raw ≤ 0
  · rw [if_pos h]
    exact ⟨le_refl _, by norm_num⟩
  · rw [if_neg h]
    have hrpos : 0 < raw := not_le.mp h
    have hs : (500 : ℝ) ≤ scaleFor t := scaleFor_ge t
    have hslog : 0 < Real.logb 10 (scaleFor t + 1) :=
      Real.logb_pos (by norm_num) (by linarith)
    have hlognn : 0 ≤ Real.logb 10 (raw + 1) :=
      Real.logb_nonneg (by norm_num) (by linarith)
    have hxnn : (0 : ℝ) ≤
        Real.logb 10 (raw + 1) / Real.logb 10 (scaleFor t + 1) * 100 := by positivity
    constructor
    · refine le_min (by norm_num) ?_
      have := round_le_round_of_le hxnn
      rwa [round_zero] at this
    · exact min_le_left _ _

theorem normalizeEngagement_scoreOk (raw : ℝ) (t : String) :
    OptScoreOk (some (normalizeEngagement raw t)) :=
  Or.inr ⟨normalizeEngagement raw t, rfl,
    (normalizeEngagement_range raw t).1, (normalizeEngagement_range raw t).2⟩

theorem llmEngagementResult_scoreOk (found : Bool) (raw ty : Option String)
    (sourceType : String) (e : EngagementResult)
    (he : llmEngagementResult found raw ty sourceType = some e) :
    OptScoreOk e.score := by
  unfold llmEngagementResult at he
  split at he
  · simp at he
  · split at he
    · simp at he
    · rename_i r
      split at he
      · rename_i n
        split at he
        · simp at he
        · injection he with he
          subst he
          exact normalizeEngagement_scoreOk _ _
      · injection he with he
        subst he
        exact Or.inl rfl

theorem extractYouTubeViews_scoreOk (views : Option Int) (e : EngagementResult)
    (he : extractYouTubeViews views = some e) : OptScoreOk e.score := by
  unfold extractYouTubeViews at he
  cases views with
  | none => simp at he
  | some v =>
    simp only [Option.map_some'] at he
    injection he with he
    subst he
    exact normalizeEngagement_scoreOk _ _

/-- What each operation writes into the engagement-score column
satisfies the range invariant. -/
def opWritesOk : StoreOp → Prop
  | .upsert d => OptScoreOk d.engagement_score
  | .updEngagement _ score _ _ _ => OptScoreOk score
  | _ => True

theorem ProgramOp.writesOk {op : StoreOp} (h : ProgramOp op) : opWritesOk op := by
  cases h with
  | rss name now dateToIso item => exact Or.inl rfl
  | podcast item name stripHtml dateToIso now => exact Or.inl rfl
  | reddit post isoOfEpochMs now => exact normalizeEngagement_scoreOk _ _
  | hackernews item isoOfEpochMs now => exact normalizeEngagement_scoreOk _ _
  | youtubeDeferred entry name dateToIso now => exact Or.inl rfl
  | youtubeInline entry name dateToIso now ts views e he =>
    exact extractYouTubeViews_scoreOk views e he
  | lazyEngagement id found raw ty sourceType e now he =>
    exact llmEngagementResult_scoreOk found raw ty sourceType e he
  | read id => trivial
  | unread id => trivial
  | setSummary id text => trivial

theorem storeOk_insertArticle (st : Store) (d : ArticleInput)
    (hst : storeOk st) (hd : OptScoreOk d.engagement_score) :
    storeOk (insertArticle st d) := by
  intro x hx
  unfold insertArticle at hx
  split at hx
  · obtain ⟨y, hy, hxy⟩ := List.mem_map.mp hx
    by_cases hid : (y.id == d.id) = true
    · rw [if_pos hid] at hxy
      subst hxy
      exact hd
    · rw [if_neg hid] at hxy
      subst hxy
      exact hst y hy
  · rcases List.mem_append.mp hx with hmem | hmem
    · exact hst x hmem
    · rw [List.mem_singleton.mp hmem]
      exact hd

theorem storeOk_updateEngagement (st : Store) (id : String)
    (score : Option Int) (raw ty now : String) (hst : storeOk st)
    (hs : OptScoreOk score) :
    storeOk (updateEngagement st id score raw ty now) := by
  intro x hx
  unfold updateEngagement at hx
  obtain ⟨y, hy, hxy⟩ := List.mem_map.mp hx
  by_cases hid : (y.id == id) = true
  · rw [if_pos hid] at hxy
    subst hxy
    exact hs
  · rw [if_neg hid] at hxy
    subst hxy
    exact hst y hy

theorem storeOk_map (st : Store) (f : Article → Article)
    (hf : ∀ a, (f a).engagement_score = a.engagement_score)
    (hst : storeOk st) : storeOk (st.map f) := by
  intro x hx
  obtain ⟨y, hy, hxy⟩ := List.mem_map.mp hx
  subst hxy
  unfold scoreOk
  rw [hf y]
  exact hst y hy

theorem storeOk_applyOp (st : Store) (op : StoreOp) (hop : ProgramOp op)
    (hst : storeOk st) : storeOk (applyOp st op) := by
  have hw := hop.writesOk
  cases op with
  | upsert d => exact storeOk_insertArticle st d hst hw
  | updEngagement id score raw ty now =>
    exact storeOk_updateEngagement st id score raw ty now hst hw
  | read id =>
    exact storeOk_map st _ (fun a => by split <;> rfl) hst
  | unread id =>
    exact storeOk_map st _ (fun a => by split <;> rfl) hst
  | setSummary id text =>
    exact storeOk_map st _ (fun a => by split <;> rfl) hst

theorem storeOk_foldl (ops : List StoreOp) :
    ∀ st : Store, (∀ op ∈ ops, ProgramOp op) → storeOk st →
      storeOk (ops.foldl applyOp st) := by
  induction ops with
  | nil => intro st _ hst; exact hst
  | cons op rest ih =>
    intro st hops hst
    exact ih (applyOp st op) (fun o ho => hops o (List.mem_cons_of_mem op ho))
      (storeOk_applyOp st op (hops op (List.mem_cons_self op rest)) hst)

/-! ### C5 -/

/-- C5: in every store state reachable from the empty store through the
program's write operations (adapter upserts computing scores via the
normalizer, `updateEngagement` fed by the lazy engagement-extraction
path, and the read/summary updates), every article's engagement score is
either absent or an integer in `[0, 100]`. -/
theorem C5_score_invariant (ops : List StoreOp)
    (hops : ∀ op ∈ ops, ProgramOp op) :
    storeOk (ops.foldl applyOp ([] : Store)) :=
  storeOk_foldl ops [] hops (fun a ha => absurd ha (List.not_mem_nil a))

/-- Witness for C5: one refresh upsert of a concrete reddit post followed
by one lazy engagement update. -/
theorem C5_score_invariant_witness :
    storeOk ([StoreOp.upsert (redditArticleInput
        ⟨"p1", "A post", "http://example.com/p", "", "alice", 1700000000, "ml", 500, 10⟩
        (fun _ => "2023-11-14T22:13:20Z") "2024-02-09T00:00:00Z"),
      StoreOp.read "reddit-p1"].foldl applyOp []) :=
  C5_score_invariant _ (by
    intro op hop
    rcases List.mem_cons.mp hop with rfl | hop2
    · exact ProgramOp.reddit _ _ _
    · rcases List.mem_cons.mp hop2 with rfl | hop3
      · exact ProgramOp.read _
      · exact absurd hop3 (List.not_mem_nil _))

end NewsDash
